import Mathlib

/-!
A verification development for the GRR `communicator.py` module: a shallow
embedding of the two-layer hybrid cryptosystem (Communicator / Cipher /
ReceivedCipher / PubKeyCache) with a symbolic model of the cryptographic
primitives, plus theorems about encode/decode behaviour.
-/

/-- Authorization state attached to each decoded message
(`jobs_pb2.GrrMessage.AuthorizationState`). -/
inductive AuthState where
  | unauthenticated
  | authenticated
deriving DecidableEq, Repr

/-- One application message (`jobs_pb2.GrrMessage`): an opaque payload plus the
`auth_state` and `source` attributes that `DecodeMessages` overwrites. -/
structure GrrMsg where
  payload : List Nat
  auth_state : AuthState := AuthState.unauthenticated
  source : String := ""
deriving DecidableEq, Repr

/-- `jobs_pb2.CipherProperties`: symmetric keying bundle. -/
structure CipherProps where
  name : String
  key : List Nat
  iv : List Nat
  hmac_key : List Nat
deriving DecidableEq, Repr

mutual
/-- Symbolic byte strings: raw bytes plus the constructors produced by the
serializations and cryptographic primitives used in `communicator.py`
(protobuf `SerializeToString`, `zlib.compress`, AES-CBC, RSA-OAEP,
RSA-PKCS1 signing, SHA-256, HMAC-SHA1).  Keys are identified by opaque
key-identity strings. -/
inductive Bytes where
  | raw : List Nat → Bytes
  | serProps : CipherProps → Bytes
  | serMeta : CipherMeta → Bytes
  | serSML : SMsgList → Bytes
  | serML : List GrrMsg → Bytes
  | zlibC : Bytes → Bytes
  | aesEnc : List Nat → List Nat → Bytes → Bytes
  | rsaEnc : String → Bytes → Bytes
  | rsaSig : String → Bytes → Bytes
  | sha256 : Bytes → Bytes
  | hmacSha1 : List Nat → Bytes → Bytes
deriving DecidableEq, Repr

/-- `jobs_pb2.CipherMetadata`: source CN and RSA signature bytes. -/
inductive CipherMeta where
  | mk : String → Bytes → CipherMeta
deriving DecidableEq, Repr

/-- `jobs_pb2.SignedMessageList`: timestamp, compression enum (as the wire
integer), message-list bytes, and the v2-only `source`/`signature` fields. -/
inductive SMsgList where
  | mk : Nat → Nat → Bytes → String → Bytes → SMsgList
deriving DecidableEq, Repr
end

def CipherMeta.source : CipherMeta → String
  | .mk s _ => s

def CipherMeta.signature : CipherMeta → Bytes
  | .mk _ sig => sig

def SMsgList.timestamp : SMsgList → Nat
  | .mk t _ _ _ _ => t

def SMsgList.compression : SMsgList → Nat
  | .mk _ c _ _ _ => c

def SMsgList.message_list : SMsgList → Bytes
  | .mk _ _ m _ _ => m

def SMsgList.source : SMsgList → String
  | .mk _ _ _ s _ => s

def SMsgList.signature : SMsgList → Bytes
  | .mk _ _ _ _ sig => sig

/-- Python exceptions that can escape the communicator's methods.  The module's
own exception classes (`DecodingError`, `DecryptionError`) carry their message;
`KeyError` is the plain Python exception raised by
`PubKeyCache.GetRSAPublicKey`; `protoDecodeError` models an uncaught
`google.protobuf.message.DecodeError`; `evpError` an uncaught M2Crypto
`EVP.EVPError` from symmetric decryption; `attributeError` a Python
`AttributeError`; `runtimeError` the `RuntimeError` of `EncodeMessages`. -/
inductive PyErr where
  | keyError : String → PyErr
  | runtimeError : String → PyErr
  | decodingError : String → PyErr
  | decryptionError : String → PyErr
  | protoDecodeError : PyErr
  | evpError : PyErr
  | attributeError : String → PyErr
deriving DecidableEq, Repr

/-- Wire length of a serialized `GrrMessage` in the length model. -/
def msgLen (m : GrrMsg) : Nat :=
  m.payload.length + m.source.length + 3

/-- Byte length of a symbolic byte string.  `raw` and protobuf message-list
serializations have content-proportional length; `zlib.compress` output is
modelled as roughly halving long inputs while adding a constant header (so
short inputs grow); the remaining constructors get fixed, realistic sizes
(they are never length-compared by the code). -/
def blen : Bytes → Nat
  | .raw s => s.length
  | .serProps _ => 70
  | .serMeta _ => 96
  | .serSML _ => 128
  | .serML ml => (ml.map msgLen).sum + 2
  | .zlibC b => blen b / 2 + 9
  | .aesEnc _ _ b => (blen b / 16) * 16 + 16
  | .rsaEnc _ _ => 256
  | .rsaSig _ _ => 256
  | .sha256 _ => 32
  | .hmacSha1 _ _ => 20

/-- `PubKeyCache.pub_key_cache`: common name → public-key identity. -/
abbrev PubKeyCache := List (String × String)

/-- `PubKeyCache.Put`. -/
def PubKeyCache.Put (c : PubKeyCache) (destination pub_key : String) : PubKeyCache :=
  (destination, pub_key) :: c

/-- `PubKeyCache.GetRSAPublicKey`: on a cache miss (`KeyError` from
`FastStore.Get`, or an `X509Error` while loading the stored key) the method
raises a plain Python `KeyError("No certificate found")`.  The `None` case
models calling it with a `None` common name (never a stored key). -/
def PubKeyCache.GetRSAPublicKey (c : PubKeyCache) (common_name : Option String) :
    Except PyErr String :=
  match common_name with
  | none => .error (.keyError "No certificate found")
  | some cn =>
    match c.lookup cn with
    | some k => .ok k
    | none => .error (.keyError "No certificate found")

/-- `RSA.private_decrypt`: RSA-OAEP unwrap; `none` models an `RSAError`
(wrong key or ill-formed ciphertext). -/
def rsaPrivateDecrypt (private_key : String) : Bytes → Option Bytes
  | .rsaEnc k d => if k = private_key then some d else none
  | _ => none

/-- `CipherProperties.ParseFromString`: `none` models a protobuf
`DecodeError`. -/
def parsePropsO : Bytes → Option CipherProps
  | .serProps p => some p
  | _ => none

/-- `CipherMetadata.ParseFromString`: `none` models a protobuf
`DecodeError`. -/
def parseMetaO : Bytes → Option CipherMeta
  | .serMeta m => some m
  | _ => none

/-- `SignedMessageList.ParseFromString`: `none` models a protobuf
`DecodeError`. -/
def parseSMLO : Bytes → Option SMsgList
  | .serSML l => some l
  | _ => none

/-- `MessageList.ParseFromString`: `none` models a protobuf `DecodeError`. -/
def parseMLO : Bytes → Option (List GrrMsg)
  | .serML ml => some ml
  | _ => none

/-- `zlib.decompress`: `none` models a `zlib.error`. -/
def zlibDecompressO : Bytes → Option Bytes
  | .zlibC d => some d
  | _ => none

/-- The in-memory state shared by `Cipher` and its subclass `ReceivedCipher`:
symmetric properties, optional metadata, the wrapped blobs, the verification
flag, and the private-key identity. -/
structure Cipher where
  private_key : String
  cipher : CipherProps
  cipher_metadata : Option CipherMeta
  serialized_cipher : Bytes
  encrypted_cipher : Bytes
  encrypted_cipher_metadata : Bytes
  signature_verified : Bool
deriving DecidableEq, Repr

/-- `Cipher.Encrypt` with an explicit IV (call sites pass either the session IV
or a freshly drawn one). -/
def Cipher.Encrypt (c : Cipher) (data : Bytes) (iv : List Nat) : Bytes :=
  Bytes.aesEnc c.cipher.key iv data

/-- AES-CBC decryption of a symbolic byte string: succeeds exactly on an AES
encryption under the same key and IV. -/
def aesDecrypt (key iv : List Nat) : Bytes → Option Bytes
  | .aesEnc k i d => if k = key ∧ i = iv then some d else none
  | _ => none

/-- `Cipher.Decrypt` as used by the communicator: an `EVP.EVPError` (wrong
key/IV or non-AES input) is not caught anywhere. -/
def Cipher.Decrypt (c : Cipher) (data : Bytes) (iv : List Nat) : Except PyErr Bytes :=
  match aesDecrypt c.cipher.key iv data with
  | some d => .ok d
  | none => .error .evpError

/-- `Cipher.HMAC`: HMAC-SHA1 keyed with the session `hmac_key`. -/
def Cipher.HMAC (c : Cipher) (data : Bytes) : Bytes :=
  Bytes.hmacSha1 c.cipher.hmac_key data

/-- `Cipher.__init__` (the locally built cipher).  The three random 16-byte
draws of `Rand.rand_pseudo_bytes` are passed in explicitly.  Destination
lookup failure surfaces as the `KeyError` of `GetRSAPublicKey`. -/
def Cipher.create (source : String) (destination : Option String)
    (private_key : String) (pkc : PubKeyCache)
    (rkey riv rhmac : List Nat) : Except PyErr Cipher :=
  let props : CipherProps := ⟨"aes_128_cbc", rkey, riv, rhmac⟩
  let serialized_cipher := Bytes.serProps props
  let signature := Bytes.rsaSig private_key (Bytes.sha256 serialized_cipher)
  let meta : CipherMeta := ⟨source, signature⟩
  match pkc.GetRSAPublicKey destination with
  | .error e => .error e
  | .ok rsa_key =>
    .ok { private_key := private_key
          cipher := props
          cipher_metadata := some meta
          serialized_cipher := serialized_cipher
          encrypted_cipher := Bytes.rsaEnc rsa_key serialized_cipher
          encrypted_cipher_metadata := Bytes.aesEnc rkey riv (Bytes.serMeta meta)
          signature_verified := true }

/-- `ReceivedCipher.VerifyCipherSignature`.  The `except` clause in the source
catches only `UnknownClientCert` and `X509Error`; the `KeyError` that
`GetRSAPublicKey` actually raises on a directory miss therefore propagates.
A verification mismatch merely leaves `signature_verified` untouched. -/
def Cipher.VerifyCipherSignature (c : Cipher) (pkc : PubKeyCache) : Except PyErr Cipher :=
  match c.cipher_metadata with
  | none => .error (.attributeError "NoneType object has no attribute signature")
  | some meta =>
    if meta.signature ≠ Bytes.raw [] then
      let digest := Bytes.sha256 c.serialized_cipher
      match pkc.GetRSAPublicKey (some meta.source) with
      | .error e => .error e
      | .ok remote_public_key =>
        if meta.signature = Bytes.rsaSig remote_public_key digest then
          .ok { c with signature_verified := true }
        else
          .ok c
    else
      .ok c

/-- The outer wire object `jobs_pb2.ClientCommunication`, with protobuf
defaults for unset fields. -/
structure ClientComm where
  api_version : Nat := 0
  encrypted_cipher : Bytes := Bytes.raw []
  encrypted_cipher_metadata : Bytes := Bytes.raw []
  iv : List Nat := []
  encrypted : Bytes := Bytes.raw []
  hmac : Bytes := Bytes.raw []
deriving DecidableEq, Repr

/-- `ReceivedCipher.__init__`: RSA-OAEP unwrap of `encrypted_cipher` (an
`RSAError` is converted to `DecryptionError`), parse and length-check the
cipher properties, and on the version-3 path decrypt the metadata and attempt
`VerifyCipherSignature`.  Protobuf parse failures (`DecodeError`) and EVP
errors are not caught by the constructor's `except RSA.RSAError` clause. -/
def ReceivedCipher.create (rc : ClientComm) (private_key : String)
    (pkc : PubKeyCache) : Except PyErr Cipher :=
  match rsaPrivateDecrypt private_key rc.encrypted_cipher with
  | none => .error (.decryptionError "RSAError")
  | some serialized =>
    match parsePropsO serialized with
    | none => .error .protoDecodeError
    | some props =>
      if props.key.length ≠ 16 ∨ props.iv.length ≠ 16 then
        .error (.decryptionError "Invalid cipher.")
      else
        let base : Cipher :=
          { private_key := private_key
            cipher := props
            cipher_metadata := none
            serialized_cipher := serialized
            encrypted_cipher := rc.encrypted_cipher
            encrypted_cipher_metadata := Bytes.raw []
            signature_verified := false }
        if rc.api_version ≥ 3 then
          if props.hmac_key.length ≠ 16 then
            .error (.decryptionError "Invalid cipher.")
          else
            match base.Decrypt rc.encrypted_cipher_metadata props.iv with
            | .error e => .error e
            | .ok metaBytes =>
              match parseMetaO metaBytes with
              | none => .error .protoDecodeError
              | some meta =>
                Cipher.VerifyCipherSignature
                  { base with
                      cipher_metadata := some meta
                      encrypted_cipher_metadata := rc.encrypted_cipher_metadata }
                  pkc
        else
          .ok base

/-- `Communicator` state.  `timestamp` models the `self.timestamp` attribute:
`none` means the attribute was never assigned (reading it raises
`AttributeError`).  A certificate is modelled as its (common name, key
identity) pair. -/
structure Communicator where
  common_name : String
  private_key : String
  pub_key_cache : PubKeyCache
  cipher_cache : List (Option String × Cipher)
  encrypted_cipher_cache : List (Bytes × Cipher)
  timestamp : Option Nat
  server_name : Option String
deriving DecidableEq, Repr

/-- `Communicator.__init__` + `_LoadOurCertificate`: empty caches, own CN put
into the public-key directory, `self.timestamp` not assigned. -/
def Communicator.create (cn keyid : String) : Communicator :=
  { common_name := cn
    private_key := keyid
    pub_key_cache := PubKeyCache.Put [] cn keyid
    cipher_cache := []
    encrypted_cipher_cache := []
    timestamp := none
    server_name := none }

/-- Teach a communicator's public-key directory about a peer
(`pub_key_cache.Put`). -/
def Communicator.putKey (c : Communicator) (cn keyid : String) : Communicator :=
  { c with pub_key_cache := c.pub_key_cache.Put cn keyid }

/-- Wire value of `jobs_pb2.SignedMessageList.UNCOMPRESSED`. -/
def UNCOMPRESSED : Nat := 0

/-- Wire value of `jobs_pb2.SignedMessageList.ZCOMPRESSION`. -/
def ZCOMPRESSION : Nat := 1

/-- `Communicator.EncodeMessageList`: serialize the batch; under the
`ZCOMPRESS` flag adopt the zlib-compressed form only when strictly shorter.
Returns the `message_list` bytes and `compression` enum written into the
signed message list. -/
def EncodeMessageList (compression_flag : String) (message_list : List GrrMsg) :
    Bytes × Nat :=
  let uncompressed_data := Bytes.serML message_list
  if compression_flag = "ZCOMPRESS" then
    let compressed_data := Bytes.zlibC uncompressed_data
    if blen compressed_data < blen uncompressed_data then
      (compressed_data, ZCOMPRESSION)
    else
      (uncompressed_data, UNCOMPRESSED)
  else
    (uncompressed_data, UNCOMPRESSED)

instance {ε α : Type} [DecidableEq ε] [DecidableEq α] : DecidableEq (Except ε α) :=
  fun a b =>
    match a, b with
    | .ok x, .ok y =>
      if h : x = y then .isTrue (by rw [h]) else .isFalse (by simp [h])
    | .error x, .error y =>
      if h : x = y then .isTrue (by rw [h]) else .isFalse (by simp [h])
    | .ok _, .error _ => .isFalse (by simp)
    | .error _, .ok _ => .isFalse (by simp)

/-- Result of `EncodeMessages`: the communicator state (mutations survive a
raise) and either the filled-in `ClientCommunication` plus the returned nonce,
or the exception. -/
structure EncodeOut where
  comm : Communicator
  result : Except PyErr (ClientComm × Nat)
deriving DecidableEq, Repr

/-- `Communicator.EncodeMessages`.  Explicit arguments stand for the
module-level inputs: `rkey`/`riv`/`rhmac` are the random draws of a freshly
built `Cipher`, `miv` the fresh IV of the version-3 symmetric encryption,
`now` the clock (`time.time() * 1e6`), `compression_flag` the global
`FLAGS.compression`.  `self.timestamp` is assigned only when the `timestamp`
argument is omitted. -/
def EncodeMessages (c : Communicator) (message_list : List GrrMsg)
    (destination : Option String) (timestamp : Option Nat) (api_version : Nat)
    (rkey riv rhmac miv : List Nat) (now : Nat) (compression_flag : String) :
    EncodeOut :=
  if api_version ≠ 2 ∧ api_version ≠ 3 then
    { comm := c, result := .error (.runtimeError "Unsupported api version.") }
  else
    let dest := match destination with
      | none => c.server_name
      | some d => some d
    let ts := match timestamp with
      | none => now
      | some t => t
    let c := match timestamp with
      | none => { c with timestamp := some now }
      | some _ => c
    let step : Except PyErr (Cipher × Communicator) :=
      match c.cipher_cache.lookup dest with
      | some cipher => .ok (cipher, c)
      | none =>
        match Cipher.create c.common_name dest c.private_key c.pub_key_cache
            rkey riv rhmac with
        | .error e => .error e
        | .ok cipher =>
          .ok (cipher, { c with cipher_cache := (dest, cipher) :: c.cipher_cache })
    match step with
    | .error e => { comm := c, result := .error e }
    | .ok (cipher, c) =>
      let (mlBytes, compression) := EncodeMessageList compression_flag message_list
      let sml : SMsgList :=
        if api_version = 2 then
          ⟨ts, compression, mlBytes, c.common_name,
            Bytes.rsaSig c.private_key (Bytes.sha256 mlBytes)⟩
        else
          ⟨ts, compression, mlBytes, "", Bytes.raw []⟩
      let serialized_message_list := Bytes.serSML sml
      let result : ClientComm :=
        if api_version ≥ 3 then
          { api_version := api_version
            encrypted_cipher := cipher.encrypted_cipher
            encrypted_cipher_metadata := cipher.encrypted_cipher_metadata
            iv := miv
            encrypted := cipher.Encrypt serialized_message_list miv
            hmac := cipher.HMAC (cipher.Encrypt serialized_message_list miv) }
        else
          { api_version := api_version
            encrypted_cipher := cipher.encrypted_cipher
            encrypted := cipher.Encrypt serialized_message_list cipher.cipher.iv }
      { comm := c, result := .ok (result, ts) }

/-- `Communicator.DecompressMessageList`: dispatch on the compression enum,
zlib-decompress when needed, parse the `MessageList`. -/
def DecompressMessageList (sml : SMsgList) : Except PyErr (List GrrMsg) :=
  let data : Except PyErr Bytes :=
    if sml.compression = UNCOMPRESSED then
      .ok sml.message_list
    else if sml.compression = ZCOMPRESSION then
      match zlibDecompressO sml.message_list with
      | some d => .ok d
      | none => .error (.decodingError "Failed to decompress: zlib error")
    else
      .error (.decodingError "Compression scheme not supported")
  match data with
  | .error e => .error e
  | .ok d =>
    match parseMLO d with
    | some ml => .ok ml
    | none => .error (.decodingError "Proto parsing failed.")

/-- First half of `Communicator.VerifyMessageSignature` (lines 546-571): the
version-2 signature check respectively the version-3 HMAC check and deferred
cipher-signature retry, before the replay defense.  Depends on the
communicator only through its public-key directory. -/
def VerifyMessageSignatureStep (pkc : PubKeyCache) (response_comms : ClientComm)
    (signed_message_list : SMsgList) (cipher : Cipher) (api_version : Nat) :
    Except PyErr (AuthState × Cipher) :=
  if api_version < 3 then
    let digest := Bytes.sha256 signed_message_list.message_list
    match pkc.GetRSAPublicKey (some signed_message_list.source) with
    | .error e => .error e
    | .ok remote_public_key =>
      if signed_message_list.signature = Bytes.rsaSig remote_public_key digest then
        .ok (.authenticated, cipher)
      else
        .ok (.unauthenticated, cipher)
  else
    if cipher.HMAC response_comms.encrypted ≠ response_comms.hmac then
      .error (.decryptionError "HMAC verification failed.")
    else
      let retried : Except PyErr Cipher :=
        if ¬ cipher.signature_verified then
          cipher.VerifyCipherSignature pkc
        else
          .ok cipher
      match retried with
      | .error e => .error e
      | .ok cipher =>
        if cipher.signature_verified then
          .ok (.authenticated, cipher)
        else
          .ok (.unauthenticated, cipher)

/-- `Communicator.VerifyMessageSignature`.  Returns the authorization state
and the cipher (whose `signature_verified` may have been retried, and whose
`cipher_metadata` is faked from `signed_message_list.source` when absent).
Reading an unassigned `self.timestamp` raises `AttributeError`. -/
def VerifyMessageSignature (c : Communicator) (response_comms : ClientComm)
    (signed_message_list : SMsgList) (cipher : Cipher) (api_version : Nat) :
    Except PyErr (AuthState × Cipher) :=
  match VerifyMessageSignatureStep c.pub_key_cache response_comms
      signed_message_list cipher api_version with
  | .error e => .error e
  | .ok (result, cipher) =>
    match c.timestamp with
    | none =>
      .error (.attributeError "Communicator instance has no attribute timestamp")
    | some t =>
      let result :=
        if signed_message_list.timestamp ≠ t then .unauthenticated else result
      let cipher :=
        match cipher.cipher_metadata with
        | none =>
          { cipher with
              cipher_metadata := some ⟨signed_message_list.source, Bytes.raw []⟩ }
        | some _ => cipher
      .ok (result, cipher)

/-- Replace the value stored under `k` in an association list (models mutating
the object a cache entry references). -/
def updateAssoc {α β : Type} [DecidableEq α] (l : List (α × β)) (k : α) (v : β) :
    List (α × β) :=
  l.map (fun p => if p.1 = k then (k, v) else p)

/-- Result of `DecodeMessages`: communicator state (mutations survive a
raise), the number of RSA-OAEP unwraps performed (`private_decrypt` calls),
and either `(messages, source, timestamp)` or the exception. -/
structure DecodeOut where
  comm : Communicator
  rsaUnwraps : Nat
  result : Except PyErr (List GrrMsg × String × Nat)
deriving DecidableEq, Repr

/-- Tail of `Communicator.DecodeMessages` once a cipher is in hand: choose the
IV (wire `iv` when non-empty, else the session IV), decrypt and parse the
signed message list, decompress, authenticate, attribute the messages.
`inCache` records whether the envelope cache holds a reference to this cipher,
in which case the mutations made by `VerifyMessageSignature` are visible in
the cache (Python aliasing). -/
def decodeWithCipher (c : Communicator) (response_comms : ClientComm)
    (cipher : Cipher) (unwraps : Nat) (inCache : Bool) : DecodeOut :=
  let iv := if response_comms.iv ≠ [] then response_comms.iv else cipher.cipher.iv
  match cipher.Decrypt response_comms.encrypted iv with
  | .error e => { comm := c, rsaUnwraps := unwraps, result := .error e }
  | .ok plain =>
    match parseSMLO plain with
    | none =>
      { comm := c, rsaUnwraps := unwraps, result := .error .protoDecodeError }
    | some signed_message_list =>
      match DecompressMessageList signed_message_list with
      | .error e => { comm := c, rsaUnwraps := unwraps, result := .error e }
      | .ok message_list =>
        match VerifyMessageSignature c response_comms signed_message_list cipher
            response_comms.api_version with
        | .error e => { comm := c, rsaUnwraps := unwraps, result := .error e }
        | .ok (auth_state, cipher2) =>
          let newCache :=
            updateAssoc c.encrypted_cipher_cache
              response_comms.encrypted_cipher cipher2
          let c :=
            if inCache then { c with encrypted_cipher_cache := newCache } else c
          match cipher2.cipher_metadata with
          | none =>
            { comm := c, rsaUnwraps := unwraps,
              result := .error
                (.attributeError "NoneType object has no attribute source") }
          | some meta =>
            { comm := c, rsaUnwraps := unwraps,
              result := .ok
                (message_list.map
                    (fun m => { m with auth_state := auth_state,
                                       source := meta.source }),
                  meta.source, signed_message_list.timestamp) }

/-- `Communicator.DecodeMessages`: version check, reject unencrypted frames,
serve the cipher from the envelope cache or build a `ReceivedCipher`
(inserting it only when `signature_verified`), then decode. -/
def DecodeMessages (c : Communicator) (response_comms : ClientComm) : DecodeOut :=
  if response_comms.api_version ≠ 2 ∧ response_comms.api_version ≠ 3 then
    { comm := c, rsaUnwraps := 0,
      result := .error (.decryptionError "Unsupported api version.") }
  else if response_comms.encrypted_cipher = Bytes.raw [] then
    { comm := c, rsaUnwraps := 0,
      result := .error (.decryptionError "Server response is not encrypted.") }
  else
    match c.encrypted_cipher_cache.lookup response_comms.encrypted_cipher with
    | some cipher => decodeWithCipher c response_comms cipher 0 true
    | none =>
      match ReceivedCipher.create response_comms c.private_key c.pub_key_cache with
      | .error e => { comm := c, rsaUnwraps := 1, result := .error e }
      | .ok cipher =>
        if cipher.signature_verified then
          decodeWithCipher
            { c with encrypted_cipher_cache :=
                (response_comms.encrypted_cipher, cipher) ::
                  c.encrypted_cipher_cache }
            response_comms cipher 1 true
        else
          decodeWithCipher c response_comms cipher 1 false

/-- `n` successive calls of `DecodeMessages` on the same frame, accumulating
the communicator state and the total number of RSA-OAEP unwraps. -/
def decodeIter (c : Communicator) (response_comms : ClientComm) :
    Nat → Communicator × Nat
  | 0 => (c, 0)
  | n + 1 =>
    let d := DecodeMessages c response_comms
    let r := decodeIter d.comm response_comms n
    (r.1, d.rsaUnwraps + r.2)

/-- The envelope-cache invariant: every cached cipher has
`signature_verified = true`. -/
def CacheVerified (c : Communicator) : Prop :=
  ∀ p ∈ c.encrypted_cipher_cache, p.2.signature_verified = true

instance (c : Communicator) : Decidable (CacheVerified c) := by
  unfold CacheVerified
  infer_instance

/-! ### Concrete test vectors -/

/-- 16 test bytes standing for the CSPRNG draw of the AES key. -/
def exKey : List Nat := [0, 1, 2, 3, 4, 5, 6, 7, 8, 9, 10, 11, 12, 13, 14, 15]

/-- 16 test bytes standing for the CSPRNG draw of the session IV. -/
def exIv : List Nat := [16, 1, 2, 3, 4, 5, 6, 7, 8, 9, 10, 11, 12, 13, 14, 15]

/-- 16 test bytes standing for the CSPRNG draw of the HMAC key. -/
def exHmacKey : List Nat := [32, 1, 2, 3, 4, 5, 6, 7, 8, 9, 10, 11, 12, 13, 14, 15]

/-- 16 test bytes standing for the fresh version-3 message IV. -/
def exMsgIv : List Nat := [48, 1, 2, 3, 4, 5, 6, 7, 8, 9, 10, 11, 12, 13, 14, 15]

/-- An encoding communicator whose directory knows its peer. -/
def exEncoder : Communicator :=
  (Communicator.create "ClientA" "KeyA").putKey "ServerB" "KeyB"

/-- A decoding communicator that knows the encoder's CN and has
`last_sent_timestamp` set to `ts`. -/
def exDecoder (ts : Nat) : Communicator :=
  { (Communicator.create "ServerB" "KeyB").putKey "ClientA" "KeyA" with
      timestamp := some ts }

/-- A decoding communicator whose directory does not know the encoder. -/
def exDecoderNoKey (ts : Nat) : Communicator :=
  { Communicator.create "ServerB" "KeyB" with timestamp := some ts }

/-- A one-message test batch. -/
def exBatch : List GrrMsg := [{ payload := [7, 7, 7] }]

/-- Encode the test batch at wire version `v` with nonce 42. -/
def exEncode (v : Nat) : EncodeOut :=
  EncodeMessages exEncoder exBatch (some "ServerB") none v
    exKey exIv exHmacKey exMsgIv 42 "ZCOMPRESS"

/-- The frame produced by `exEncode`. -/
def exFrame (v : Nat) : ClientComm :=
  match (exEncode v).result with
  | .ok (f, _) => f
  | .error _ => {}

/-! ### Theorems -/

/-- **C7** (confirmed).  Under the `ZCOMPRESS` policy, `EncodeMessageList`
adopts the zlib serialization only when it is strictly shorter than the raw
serialization; whenever the compressed form is at least as long, the output
is the raw bytes marked `UNCOMPRESSED`. -/
theorem encode_message_list_compression_policy (flag : String) (ml : List GrrMsg)
    (hflag : flag = "ZCOMPRESS") :
    (blen (Bytes.serML ml) ≤ blen (Bytes.zlibC (Bytes.serML ml)) →
      EncodeMessageList flag ml = (Bytes.serML ml, UNCOMPRESSED)) ∧
    ((EncodeMessageList flag ml).2 = ZCOMPRESSION →
      blen (Bytes.zlibC (Bytes.serML ml)) < blen (Bytes.serML ml) ∧
      (EncodeMessageList flag ml).1 = Bytes.zlibC (Bytes.serML ml)) := by
  subst hflag
  unfold EncodeMessageList
  by_cases h : blen (Bytes.zlibC (Bytes.serML ml)) < blen (Bytes.serML ml)
  · simp only [if_pos rfl, if_pos h]
    refine ⟨fun hle => absurd h (by omega), fun _ => ⟨h, rfl⟩⟩
  · simp only [if_pos rfl, if_neg h]
    refine ⟨fun _ => rfl, fun h2 => absurd h2 (by simp [UNCOMPRESSED, ZCOMPRESSION])⟩

/-- Witness for `encode_message_list_compression_policy` at the empty batch
(whose modelled zlib form is longer than its raw form). -/
theorem encode_message_list_compression_policy_witness :
    "ZCOMPRESS" = "ZCOMPRESS" ∧
    ((blen (Bytes.serML ([] : List GrrMsg)) ≤
        blen (Bytes.zlibC (Bytes.serML ([] : List GrrMsg))) →
      EncodeMessageList "ZCOMPRESS" [] = (Bytes.serML [], UNCOMPRESSED)) ∧
    ((EncodeMessageList "ZCOMPRESS" ([] : List GrrMsg)).2 = ZCOMPRESSION →
      blen (Bytes.zlibC (Bytes.serML ([] : List GrrMsg))) <
        blen (Bytes.serML ([] : List GrrMsg)) ∧
      (EncodeMessageList "ZCOMPRESS" ([] : List GrrMsg)).1 =
        Bytes.zlibC (Bytes.serML ([] : List GrrMsg)))) :=
  ⟨rfl, encode_message_list_compression_policy "ZCOMPRESS" [] rfl⟩

/-- **C8** (corrected): counterexample.  A communicator with
`self.timestamp = 5` encodes with an explicitly supplied `timestamp = 7`: the
call returns nonce 7 but leaves the stored `self.timestamp` at 5, because the
assignment `self.timestamp = timestamp` only runs when the argument is
omitted. -/
theorem encode_explicit_timestamp_not_stored_counterexample :
    ((EncodeMessages { exEncoder with timestamp := some 5 } exBatch
        (some "ServerB") (some 7) 3 exKey exIv exHmacKey exMsgIv 99
        "ZCOMPRESS").comm.timestamp = some 5) ∧
    ((EncodeMessages { exEncoder with timestamp := some 5 } exBatch
        (some "ServerB") (some 7) 3 exKey exIv exHmacKey exMsgIv 99
        "ZCOMPRESS").result.toOption.map Prod.snd = some 7) :=
  ⟨rfl, rfl⟩

/-- **C8** (corrected): amended claim.  `EncodeMessages` stores the emitted
nonce in `self.timestamp` only when the `timestamp` argument is omitted; when
the caller supplies it explicitly the stored value is left unchanged. -/
theorem encode_timestamp_update (c : Communicator) (ml : List GrrMsg)
    (dest : Option String) (v : Nat) (rkey riv rhmac miv : List Nat)
    (now t : Nat) (flag : String) (hv : v = 2 ∨ v = 3) :
    (EncodeMessages c ml dest none v rkey riv rhmac miv now flag).comm.timestamp
      = some now ∧
    (EncodeMessages c ml dest (some t) v rkey riv rhmac miv now flag).comm.timestamp
      = c.timestamp := by
  have hv' : ¬(v ≠ 2 ∧ v ≠ 3) := by rcases hv with h | h <;> simp [h]
  constructor <;>
  · unfold EncodeMessages
    rw [if_neg hv']
    dsimp only
    split
    · rfl
    · next heq =>
      split at heq
      · cases heq; rfl
      · split at heq
        · simp at heq
        · cases heq; rfl

/-- Witness for `encode_timestamp_update` at version 3. -/
theorem encode_timestamp_update_witness :
    ((3 : Nat) = 2 ∨ (3 : Nat) = 3) ∧
    ((EncodeMessages exEncoder [] none none 3 [] [] [] [] 1 "").comm.timestamp
      = some 1 ∧
    (EncodeMessages exEncoder [] none (some 2) 3 [] [] [] [] 1 "").comm.timestamp
      = exEncoder.timestamp) :=
  ⟨Or.inr rfl, encode_timestamp_update exEncoder [] none 3 [] [] [] [] 1 2 ""
    (Or.inr rfl)⟩

/-- **C2** (code_bug).  Version-3 frame from "ClientA", decoder directory
without "ClientA": the spec says the lookup miss inside
`VerifyCipherSignature` is swallowed silently, leaving
`signature_verified = false`.  In the code, `GetRSAPublicKey` raises a plain
`KeyError`, which the `except (UnknownClientCert, X509Error)` clause does not
catch, so `DecodeMessages` raises instead of returning an UNAUTHENTICATED
batch. -/
theorem verify_cipher_signature_unknown_sender_raises :
    (DecodeMessages (exDecoderNoKey 42) (exFrame 3)).result
      = .error (.keyError "No certificate found") := by
  rfl

/-- A placeholder cipher object used to instantiate generic theorems. -/
def exDummyCipher : Cipher :=
  { private_key := ""
    cipher := ⟨"aes_128_cbc", exKey, exIv, exHmacKey⟩
    cipher_metadata := none
    serialized_cipher := Bytes.raw []
    encrypted_cipher := Bytes.raw []
    encrypted_cipher_metadata := Bytes.raw []
    signature_verified := false }

/-- **C3** (corrected): counterexample.  A version-2 frame from "ClientA"
decoded by a communicator whose directory does not know "ClientA": the lookup
in `VerifyMessageSignature` raises `KeyError` out of `DecodeMessages`; no
UNAUTHENTICATED batch is returned. -/
theorem v2_unknown_sender_counterexample :
    (DecodeMessages (exDecoderNoKey 42) (exFrame 2)).result
      = .error (.keyError "No certificate found") := by
  rfl

/-- **C3** (corrected): amended claim.  When authenticating a version-2 frame
whose sender public key is missing from the directory,
`VerifyMessageSignature` propagates the lookup's `KeyError` (there is no
handler on this path), so decoding raises instead of returning an
UNAUTHENTICATED batch. -/
theorem v2_unknown_sender_keyerror (c : Communicator) (rc : ClientComm)
    (sml : SMsgList) (cipher : Cipher) (v : Nat) (hv : v < 3)
    (hmiss : c.pub_key_cache.lookup sml.source = none) :
    VerifyMessageSignature c rc sml cipher v
      = .error (.keyError "No certificate found") := by
  unfold VerifyMessageSignature VerifyMessageSignatureStep
  rw [if_pos hv]
  have hg : c.pub_key_cache.GetRSAPublicKey (some sml.source)
      = .error (.keyError "No certificate found") := by
    unfold PubKeyCache.GetRSAPublicKey
    dsimp only
    rw [hmiss]
  rw [hg]

/-- Witness for `v2_unknown_sender_keyerror`. -/
theorem v2_unknown_sender_keyerror_witness :
    (2 : Nat) < 3 ∧
    (exDecoderNoKey 0).pub_key_cache.lookup
      (SMsgList.mk 0 0 (Bytes.raw []) "ClientA" (Bytes.raw [])).source = none ∧
    VerifyMessageSignature (exDecoderNoKey 0) {}
        (SMsgList.mk 0 0 (Bytes.raw []) "ClientA" (Bytes.raw [])) exDummyCipher 2
      = .error (.keyError "No certificate found") :=
  ⟨by decide, by decide,
    v2_unknown_sender_keyerror (exDecoderNoKey 0) {}
      (SMsgList.mk 0 0 (Bytes.raw []) "ClientA" (Bytes.raw [])) exDummyCipher 2
      (by decide) (by decide)⟩

/-- The only exception `PubKeyCache.GetRSAPublicKey` can raise is
`KeyError("No certificate found")`. -/
theorem GetRSAPublicKey_error_shape (pkc : PubKeyCache) (cn : Option String)
    (e : PyErr) (h : pkc.GetRSAPublicKey cn = .error e) :
    e = .keyError "No certificate found" := by
  unfold PubKeyCache.GetRSAPublicKey at h
  split at h
  · injection h with h2
    exact h2.symm
  · split at h
    · simp at h
    · injection h with h2
      exact h2.symm

/-- The only exception kinds `VerifyCipherSignature` can raise: the lookup's
`KeyError` or an `AttributeError` from a `None` metadata. -/
theorem verifyCipherSignature_error_shape (c : Cipher) (pkc : PubKeyCache)
    (e : PyErr) (h : c.VerifyCipherSignature pkc = .error e) :
    e = .keyError "No certificate found" ∨ ∃ s, e = .attributeError s := by
  unfold Cipher.VerifyCipherSignature at h
  dsimp only at h
  split at h
  · injection h with h2
    exact Or.inr ⟨_, h2.symm⟩
  · split at h
    · split at h
      · next heq =>
        injection h with h2
        subst h2
        exact Or.inl (GetRSAPublicKey_error_shape _ _ _ heq)
      · split at h <;> simp at h
    · simp at h

/-- **C5** (corrected): counterexample.  A version-3 frame whose `encrypted`
bytes do not decrypt and whose `hmac` differs from
`HMAC-SHA1(session hmac_key, encrypted)`: decoding fails with the uncaught
EVP decryption error raised *before* the HMAC check, not with the
HMAC-mismatch `DecryptionError`, refuting the claimed "fails with the
HMAC-mismatch error iff the HMACs differ". -/
theorem hmac_mismatch_error_counterexample :
    (DecodeMessages (exDecoder 42)
        { exFrame 3 with encrypted := Bytes.raw [9, 9, 9], hmac := Bytes.raw [] }).result
      = .error .evpError ∧
    Bytes.hmacSha1 exHmacKey (Bytes.raw [9, 9, 9]) ≠ Bytes.raw [] :=
  ⟨rfl, by decide⟩

/-- A `DecryptionError` result of `VerifyMessageSignature` must already come
from its signature/HMAC step: the replay-defense tail only adds
`AttributeError` or succeeds. -/
theorem vms_error_decryption_iff (c : Communicator) (rc : ClientComm)
    (sml : SMsgList) (cipher : Cipher) (v : Nat) (s : String) :
    (VerifyMessageSignature c rc sml cipher v = .error (.decryptionError s))
    ↔ (VerifyMessageSignatureStep c.pub_key_cache rc sml cipher v
        = .error (.decryptionError s)) := by
  unfold VerifyMessageSignature
  rcases hr : VerifyMessageSignatureStep c.pub_key_cache rc sml cipher v with e | p
  · simp
  · rcases p with ⟨a, cip⟩
    dsimp only
    rcases c.timestamp with _ | t
    · simp
    · simp

/-- **C5** (corrected): amended claim.  For a version-3 frame that reaches
authentication, `VerifyMessageSignature` fails with the HMAC-mismatch
`DecryptionError` exactly when HMAC-SHA1 under the session `hmac_key` over
the outer `encrypted` bytes differs from the frame's `hmac` field; when they
match, no HMAC-mismatch error is raised and verification proceeds. -/
theorem v3_hmac_mismatch_iff (c : Communicator) (rc : ClientComm)
    (sml : SMsgList) (cipher : Cipher) :
    (VerifyMessageSignature c rc sml cipher 3
        = .error (.decryptionError "HMAC verification failed."))
    ↔ cipher.HMAC rc.encrypted ≠ rc.hmac := by
  rw [vms_error_decryption_iff]
  unfold VerifyMessageSignatureStep
  rw [if_neg (by omega : ¬ (3 : Nat) < 3)]
  by_cases h : cipher.HMAC rc.encrypted = rc.hmac
  · rw [if_neg (not_not_intro h)]
    dsimp only
    constructor
    · intro hcontra
      exfalso
      rcases hr : (if ¬cipher.signature_verified = true then
          cipher.VerifyCipherSignature c.pub_key_cache else .ok cipher) with e | cip
      · rw [hr] at hcontra
        dsimp only at hcontra
        injection hcontra with h2
        by_cases hsv : cipher.signature_verified = true
        · rw [if_neg (not_not_intro hsv)] at hr
          simp at hr
        · rw [if_pos hsv] at hr
          rcases verifyCipherSignature_error_shape _ _ _ hr with h3 | ⟨str, h3⟩ <;>
            simp [h3] at h2
      · rw [hr] at hcontra
        dsimp only at hcontra
        split at hcontra <;> simp at hcontra
    · intro hne
      exact absurd h hne
  · rw [if_pos h]
    simp [h]

/-- A successful `VerifyMessageSignature` presupposes an assigned
`self.timestamp`, and returns UNAUTHENTICATED whenever the inner timestamp
differs from it. -/
theorem vms_ok_timestamp (c : Communicator) (rc : ClientComm) (sml : SMsgList)
    (cipher : Cipher) (v : Nat) (auth : AuthState) (cip2 : Cipher)
    (h : VerifyMessageSignature c rc sml cipher v = .ok (auth, cip2)) :
    ∃ t, c.timestamp = some t ∧ (sml.timestamp ≠ t → auth = .unauthenticated) := by
  unfold VerifyMessageSignature at h
  split at h
  · simp at h
  · rcases ht : c.timestamp with _ | t
    · rw [ht] at h
      simp at h
    · rw [ht] at h
      dsimp only at h
      refine ⟨t, rfl, fun hne => ?_⟩
      rw [if_pos hne] at h
      split at h <;>
      · injection h with h2
        exact (congrArg Prod.fst h2).symm

/-- Inversion of a successful `decodeWithCipher`: the result comes from a
decrypted and parsed signed message list that passed
`VerifyMessageSignature`, with every message attributed with the returned
authorization state and metadata source. -/
theorem decodeWithCipher_ok (c : Communicator) (rc : ClientComm)
    (cipher : Cipher) (u : Nat) (b : Bool) (msgs : List GrrMsg) (src : String)
    (ts : Nat)
    (h : (decodeWithCipher c rc cipher u b).result = .ok (msgs, src, ts)) :
    ∃ (sml : SMsgList) (ml : List GrrMsg) (auth : AuthState) (cip2 : Cipher)
      (meta : CipherMeta),
      VerifyMessageSignature c rc sml cipher rc.api_version = .ok (auth, cip2) ∧
      cip2.cipher_metadata = some meta ∧
      msgs = ml.map
          (fun m => { m with auth_state := auth, source := meta.source }) ∧
      src = meta.source ∧ ts = sml.timestamp := by
  unfold decodeWithCipher at h
  dsimp only at h
  split at h
  · simp at h
  · split at h
    · simp at h
    · next sml hsml =>
      split at h
      · simp at h
      · next ml hml =>
        split at h
        · simp at h
        · next auth cip2 hvms =>
          split at h
          · simp at h
          · next meta hmeta =>
            dsimp only at h
            injection h with h2
            exact ⟨sml, ml, auth, cip2, meta, hvms, hmeta,
              (congrArg (fun x => x.1) h2).symm,
              (congrArg (fun x => x.2.1) h2).symm,
              (congrArg (fun x => x.2.2) h2).symm⟩

/-- Inversion of a successful `DecodeMessages` down to the `decodeWithCipher`
call it makes: the communicator it passes on shares the caller's
`self.timestamp` and public-key directory. -/
theorem decode_ok_inv (c : Communicator) (rc : ClientComm)
    (r : List GrrMsg × String × Nat)
    (h : (DecodeMessages c rc).result = .ok r) :
    ∃ c1 cipher u b, (decodeWithCipher c1 rc cipher u b).result = .ok r ∧
      c1.timestamp = c.timestamp ∧ c1.pub_key_cache = c.pub_key_cache := by
  unfold DecodeMessages at h
  split at h
  · simp at h
  · split at h
    · simp at h
    · split at h
      · exact ⟨c, _, 0, true, h, rfl, rfl⟩
      · split at h
        · simp at h
        · split at h
          · exact ⟨_, _, 1, true, h, rfl, rfl⟩
          · exact ⟨c, _, 1, false, h, rfl, rfl⟩

/-- **C4** (confirmed).  Whenever `DecodeMessages` returns a batch whose inner
timestamp differs from the communicator's stored `last_sent_timestamp`
(`self.timestamp`), every returned message carries
`auth_state = UNAUTHENTICATED`, regardless of the signature or HMAC
outcome. -/
theorem replay_timestamp_mismatch_unauthenticated (c : Communicator)
    (rc : ClientComm) (msgs : List GrrMsg) (src : String) (ts : Nat)
    (hok : (DecodeMessages c rc).result = .ok (msgs, src, ts))
    (hne : c.timestamp ≠ some ts) :
    ∀ m ∈ msgs, m.auth_state = .unauthenticated := by
  obtain ⟨c1, cipher, u, b, hd, hts, _⟩ := decode_ok_inv c rc _ hok
  obtain ⟨sml, ml, auth, cip2, meta, hvms, _, hmsgs, _, htts⟩ :=
    decodeWithCipher_ok _ _ _ _ _ _ _ _ hd
  obtain ⟨t, ht, himp⟩ := vms_ok_timestamp _ _ _ _ _ _ _ hvms
  have hauth : auth = .unauthenticated := by
    apply himp
    intro hEq
    apply hne
    rw [← hts, ht, ← hEq, ← htts]
  subst hmsgs hauth
  intro m hm
  rw [List.mem_map] at hm
  obtain ⟨m0, _, rfl⟩ := hm
  rfl

/-- Witness for `replay_timestamp_mismatch_unauthenticated`: a decoder whose
stored nonce is 43 accepts the frame carrying nonce 42 but returns its
message UNAUTHENTICATED. -/
theorem replay_timestamp_mismatch_unauthenticated_witness :
    (DecodeMessages (exDecoder 43) (exFrame 3)).result
      = .ok
        ([{ payload := [7, 7, 7], auth_state := .unauthenticated, source := "ClientA" }],
          "ClientA", 42) ∧
    (exDecoder 43).timestamp ≠ some 42 ∧
    (∀ m ∈
        [({ payload := [7, 7, 7], auth_state := .unauthenticated, source := "ClientA" } : GrrMsg)],
      m.auth_state = .unauthenticated) :=
  ⟨rfl, by decide,
    replay_timestamp_mismatch_unauthenticated (exDecoder 43) (exFrame 3) _ _ _
      rfl (by decide)⟩

/-- If a communicator state's signature/HMAC step succeeds, the same
verification by a state with the same directory but an unassigned
`self.timestamp` raises `AttributeError` at the replay check. -/
theorem vms_timestamp_none (c1 c2 : Communicator) (rc : ClientComm)
    (sml : SMsgList) (cipher : Cipher) (v : Nat) (out : AuthState × Cipher)
    (hpkc : c1.pub_key_cache = c2.pub_key_cache) (hn : c1.timestamp = none)
    (hok : VerifyMessageSignature c2 rc sml cipher v = .ok out) :
    VerifyMessageSignature c1 rc sml cipher v
      = .error (.attributeError "Communicator instance has no attribute timestamp") := by
  unfold VerifyMessageSignature at hok ⊢
  rw [hpkc]
  rcases hs : VerifyMessageSignatureStep c2.pub_key_cache rc sml cipher v with e | p
  · rw [hs] at hok
    simp at hok
  · obtain ⟨a, cip⟩ := p
    dsimp only
    rw [hn]

/-- `decodeWithCipher` version of the previous lemma: the stages before
authentication do not read `self.timestamp`. -/
theorem dwc_timestamp_none (c1 c2 : Communicator) (rc : ClientComm)
    (cipher : Cipher) (u1 u2 : Nat) (b1 b2 : Bool)
    (out : List GrrMsg × String × Nat)
    (hpkc : c1.pub_key_cache = c2.pub_key_cache) (hn : c1.timestamp = none)
    (hok : (decodeWithCipher c2 rc cipher u2 b2).result = .ok out) :
    (decodeWithCipher c1 rc cipher u1 b1).result
      = .error (.attributeError "Communicator instance has no attribute timestamp") := by
  unfold decodeWithCipher at hok ⊢
  dsimp only at hok ⊢
  rcases hdec : cipher.Decrypt rc.encrypted
      (if rc.iv ≠ [] then rc.iv else cipher.cipher.iv) with e | plain
  · rw [hdec] at hok
    simp at hok
  · rw [hdec] at hok
    dsimp only at hok ⊢
    rcases hp : parseSMLO plain with _ | sml
    · rw [hp] at hok
      simp at hok
    · rw [hp] at hok
      dsimp only at hok ⊢
      rcases hdc : DecompressMessageList sml with e | ml
      · rw [hdc] at hok
        simp at hok
      · rw [hdc] at hok
        dsimp only at hok ⊢
        rcases hv2 : VerifyMessageSignature c2 rc sml cipher rc.api_version
            with e | p
        · rw [hv2] at hok
          simp at hok
        · rw [vms_timestamp_none c1 c2 rc sml cipher rc.api_version p hpkc hn hv2]

/-- If decoding with `self.timestamp` assigned would succeed, decoding the
same frame with `self.timestamp` unassigned raises `AttributeError`. -/
theorem decode_timestamp_none (c : Communicator) (rc : ClientComm) (t : Nat)
    (out : List GrrMsg × String × Nat) (hn : c.timestamp = none)
    (hok : (DecodeMessages { c with timestamp := some t } rc).result = .ok out) :
    (DecodeMessages c rc).result
      = .error (.attributeError "Communicator instance has no attribute timestamp") := by
  unfold DecodeMessages at hok ⊢
  dsimp only at hok ⊢
  by_cases h1 : rc.api_version ≠ 2 ∧ rc.api_version ≠ 3
  · rw [if_pos h1] at hok
    simp at hok
  · rw [if_neg h1] at hok ⊢
    by_cases h2 : rc.encrypted_cipher = Bytes.raw []
    · rw [if_pos h2] at hok
      simp at hok
    · rw [if_neg h2] at hok ⊢
      rcases hl : List.lookup rc.encrypted_cipher c.encrypted_cipher_cache
          with _ | cipher
      · rw [hl] at hok
        dsimp only at hok ⊢
        rcases hc : ReceivedCipher.create rc c.private_key c.pub_key_cache
            with e | cipher
        · rw [hc] at hok
          simp at hok
        · rw [hc] at hok
          dsimp only at hok ⊢
          by_cases hsv : cipher.signature_verified = true
          · rw [if_pos hsv] at hok ⊢
            exact dwc_timestamp_none
              { c with
                  encrypted_cipher_cache :=
                    (rc.encrypted_cipher, cipher) :: c.encrypted_cipher_cache }
              { c with
                  encrypted_cipher_cache :=
                    (rc.encrypted_cipher, cipher) :: c.encrypted_cipher_cache
                  timestamp := some t }
              rc cipher 1 1 true true out rfl hn hok
          · rw [if_neg hsv] at hok ⊢
            exact dwc_timestamp_none c { c with timestamp := some t } rc cipher
              1 1 false false out rfl hn hok
      · rw [hl] at hok
        dsimp only at hok ⊢
        exact dwc_timestamp_none c { c with timestamp := some t } rc cipher
          0 0 true true out rfl hn hok

/-- **C9** (confirmed).  On a communicator that never ran `EncodeMessages`
with an omitted `timestamp`, the `self.timestamp` attribute does not exist;
`DecodeMessages` then never returns a batch: every frame that would otherwise
decode (for any assigned nonce) instead fails with `AttributeError` raised in
`VerifyMessageSignature`'s replay check. -/
theorem fresh_communicator_decode_attribute_error (c : Communicator)
    (rc : ClientComm) (hn : c.timestamp = none) :
    (∀ out, (DecodeMessages c rc).result ≠ .ok out) ∧
    (∀ t out,
      (DecodeMessages { c with timestamp := some t } rc).result = .ok out →
      (DecodeMessages c rc).result
        = .error
          (.attributeError "Communicator instance has no attribute timestamp")) := by
  constructor
  · intro out hok
    obtain ⟨msgs, src, ts⟩ := out
    obtain ⟨c1, cipher, u, b, hd, hts, -⟩ := decode_ok_inv c rc _ hok
    obtain ⟨sml, ml, auth, cip2, meta, hvms, -, -, -, -⟩ :=
      decodeWithCipher_ok _ _ _ _ _ _ _ _ hd
    obtain ⟨t, ht, -⟩ := vms_ok_timestamp _ _ _ _ _ _ _ hvms
    rw [hts, hn] at ht
    exact Option.noConfusion ht
  · intro t out hok
    exact decode_timestamp_none c rc t out hn hok

/-- Witness for `fresh_communicator_decode_attribute_error` on a freshly
constructed decoder and the version-3 test frame. -/
theorem fresh_communicator_decode_attribute_error_witness :
    ((Communicator.create "ServerB" "KeyB").putKey "ClientA" "KeyA").timestamp
      = none ∧
    ((∀ out,
      (DecodeMessages ((Communicator.create "ServerB" "KeyB").putKey "ClientA"
        "KeyA") (exFrame 3)).result ≠ .ok out) ∧
    (∀ t out,
      (DecodeMessages
        { (Communicator.create "ServerB" "KeyB").putKey "ClientA" "KeyA" with
            timestamp := some t } (exFrame 3)).result = .ok out →
      (DecodeMessages ((Communicator.create "ServerB" "KeyB").putKey "ClientA"
        "KeyA") (exFrame 3)).result
        = .error
          (.attributeError "Communicator instance has no attribute timestamp"))) :=
  ⟨rfl, fresh_communicator_decode_attribute_error
    ((Communicator.create "ServerB" "KeyB").putKey "ClientA" "KeyA")
    (exFrame 3) rfl⟩

/-- An association-list lookup hit is a member of the list. -/
theorem lookup_mem_assoc {α β : Type} [DecidableEq α] (l : List (α × β)) (k : α)
    (v : β) (h : l.lookup k = some v) : (k, v) ∈ l := by
  induction l with
  | nil => simp at h
  | cons p l ih =>
    obtain ⟨a, b⟩ := p
    rw [List.lookup_cons] at h
    by_cases hk : k = a
    · subst hk
      simp at h
      subst h
      exact List.mem_cons_self _ _
    · have hba : (k == a) = false := by
        simp [hk]
      rw [hba] at h
      exact List.mem_cons_of_mem _ (ih h)

/-- `updateAssoc` preserves a property of all stored values, provided the new
value has it. -/
theorem updateAssoc_forall {α β : Type} [DecidableEq α] (l : List (α × β))
    (k : α) (v : β) (P : β → Prop) (hl : ∀ p ∈ l, P p.2) (hv : P v) :
    ∀ p ∈ updateAssoc l k v, P p.2 := by
  intro p hp
  unfold updateAssoc at hp
  rw [List.mem_map] at hp
  obtain ⟨q, hq, hpq⟩ := hp
  by_cases h : q.1 = k
  · rw [if_pos h] at hpq
    rw [← hpq]
    exact hv
  · rw [if_neg h] at hpq
    rw [← hpq]
    exact hl q hq

/-- The signature/HMAC step never clears a cipher's `signature_verified`
flag. -/
theorem vmsStep_verified_mono (pkc : PubKeyCache) (rc : ClientComm)
    (sml : SMsgList) (cipher : Cipher) (v : Nat) (a : AuthState) (cm : Cipher)
    (h : VerifyMessageSignatureStep pkc rc sml cipher v = .ok (a, cm))
    (hv : cipher.signature_verified = true) : cm.signature_verified = true := by
  unfold VerifyMessageSignatureStep at h
  by_cases hv3 : v < 3
  · rw [if_pos hv3] at h
    dsimp only at h
    rcases hg : pkc.GetRSAPublicKey (some sml.source) with e | key
    · rw [hg] at h
      simp at h
    · rw [hg] at h
      dsimp only at h
      split at h <;>
      · injection h with h2
        have h3 := congrArg Prod.snd h2
        dsimp only at h3
        rw [← h3]
        exact hv
  · rw [if_neg hv3] at h
    by_cases hhm : cipher.HMAC rc.encrypted ≠ rc.hmac
    · rw [if_pos hhm] at h
      simp at h
    · rw [if_neg hhm] at h
      rw [if_neg (not_not_intro hv)] at h
      dsimp only at h
      rw [if_pos hv] at h
      injection h with h2
      have h3 := congrArg Prod.snd h2
      dsimp only at h3
      rw [← h3]
      exact hv

/-- `VerifyMessageSignature` never clears a cipher's `signature_verified`
flag (the metadata faking keeps it). -/
theorem vms_verified_mono (c : Communicator) (rc : ClientComm) (sml : SMsgList)
    (cipher : Cipher) (v : Nat) (auth : AuthState) (cip2 : Cipher)
    (h : VerifyMessageSignature c rc sml cipher v = .ok (auth, cip2))
    (hv : cipher.signature_verified = true) : cip2.signature_verified = true := by
  unfold VerifyMessageSignature at h
  rcases hs : VerifyMessageSignatureStep c.pub_key_cache rc sml cipher v
      with e | p
  · rw [hs] at h
    simp at h
  · rw [hs] at h
    obtain ⟨a, cm⟩ := p
    have hcm : cm.signature_verified = true :=
      vmsStep_verified_mono _ _ _ _ _ _ _ hs hv
    dsimp only at h
    rcases ht : c.timestamp with _ | t
    · rw [ht] at h
      simp at h
    · rw [ht] at h
      dsimp only at h
      injection h with h2
      have h3 := congrArg Prod.snd h2
      dsimp only at h3
      rcases hmeta : cm.cipher_metadata with _ | m
      · rw [hmeta] at h3
        rw [← h3]
        exact hcm
      · rw [hmeta] at h3
        rw [← h3]
        exact hcm

/-- `decodeWithCipher` preserves the envelope-cache invariant, provided the
cipher it was handed is verified whenever the cache references it. -/
theorem dwc_cache_invariant (c : Communicator) (rc : ClientComm)
    (cipher : Cipher) (u : Nat) (b : Bool) (hinv : CacheVerified c)
    (hcip : b = true → cipher.signature_verified = true) :
    CacheVerified (decodeWithCipher c rc cipher u b).comm := by
  unfold decodeWithCipher
  dsimp only
  rcases hdec : cipher.Decrypt rc.encrypted
      (if rc.iv ≠ [] then rc.iv else cipher.cipher.iv) with e | plain
  · exact hinv
  · dsimp only
    rcases hp : parseSMLO plain with _ | sml
    · exact hinv
    · dsimp only
      rcases hdc : DecompressMessageList sml with e | ml
      · exact hinv
      · dsimp only
        rcases hv2 : VerifyMessageSignature c rc sml cipher rc.api_version
            with e | p
        · exact hinv
        · obtain ⟨auth, cip2⟩ := p
          dsimp only
          have hcip2 : b = true → cip2.signature_verified = true := fun hb =>
            vms_verified_mono _ _ _ _ _ _ _ hv2 (hcip hb)
          cases b with
          | false =>
            rcases hm : cip2.cipher_metadata with _ | meta <;> exact hinv
          | true =>
            rcases hm : cip2.cipher_metadata with _ | meta <;>
            · intro p hp2
              exact updateAssoc_forall c.encrypted_cipher_cache
                rc.encrypted_cipher cip2
                (fun x => x.signature_verified = true) hinv (hcip2 rfl) p hp2

/-- **C10** (confirmed).  `DecodeMessages` preserves the invariant that every
cipher stored in the envelope cache has `signature_verified = true`
(insertion is guarded by the flag and no operation clears it), and under that
invariant any decode served from the cache uses a verified cipher. -/
theorem encrypted_cipher_cache_verified (c : Communicator) (rc : ClientComm)
    (hinv : CacheVerified c) :
    CacheVerified (DecodeMessages c rc).comm ∧
    (∀ cip, c.encrypted_cipher_cache.lookup rc.encrypted_cipher = some cip →
      cip.signature_verified = true) := by
  constructor
  · unfold DecodeMessages
    by_cases h1 : rc.api_version ≠ 2 ∧ rc.api_version ≠ 3
    · rw [if_pos h1]
      exact hinv
    · rw [if_neg h1]
      by_cases h2 : rc.encrypted_cipher = Bytes.raw []
      · rw [if_pos h2]
        exact hinv
      · rw [if_neg h2]
        rcases hl : List.lookup rc.encrypted_cipher c.encrypted_cipher_cache
            with _ | cipher
        · dsimp only
          rcases hc : ReceivedCipher.create rc c.private_key c.pub_key_cache
              with e | cipher
          · exact hinv
          · dsimp only
            by_cases hsv : cipher.signature_verified = true
            · rw [if_pos hsv]
              apply dwc_cache_invariant
              · intro p hp
                rcases List.mem_cons.mp hp with h | h
                · subst h
                  exact hsv
                · exact hinv p h
              · exact fun _ => hsv
            · rw [if_neg hsv]
              exact dwc_cache_invariant _ _ _ _ _ hinv
                (fun hb => (Bool.false_ne_true hb).elim)
        · dsimp only
          apply dwc_cache_invariant _ _ _ _ _ hinv
          intro _
          exact hinv _ (lookup_mem_assoc _ _ _ hl)
  · intro cip hcl
    exact hinv _ (lookup_mem_assoc _ _ _ hcl)

/-- Witness for `encrypted_cipher_cache_verified` on the test decoder (empty
cache) and version-3 test frame. -/
theorem encrypted_cipher_cache_verified_witness :
    CacheVerified (exDecoder 42) ∧
    (CacheVerified (DecodeMessages (exDecoder 42) (exFrame 3)).comm ∧
    (∀ cip,
      (exDecoder 42).encrypted_cipher_cache.lookup (exFrame 3).encrypted_cipher
        = some cip → cip.signature_verified = true)) :=
  ⟨by decide, encrypted_cipher_cache_verified (exDecoder 42) (exFrame 3)
    (by decide)⟩

/-- `decodeWithCipher` never performs an RSA unwrap itself: it returns the
count it was handed. -/
theorem dwc_unwraps (c : Communicator) (rc : ClientComm) (cipher : Cipher)
    (u : Nat) (b : Bool) : (decodeWithCipher c rc cipher u b).rsaUnwraps = u := by
  unfold decodeWithCipher
  dsimp only
  rcases hdec : cipher.Decrypt rc.encrypted
      (if rc.iv ≠ [] then rc.iv else cipher.cipher.iv) with e | plain
  · rfl
  · dsimp only
    rcases hp : parseSMLO plain with _ | sml
    · rfl
    · dsimp only
      rcases hdc : DecompressMessageList sml with e | ml
      · rfl
      · dsimp only
        rcases hv2 : VerifyMessageSignature c rc sml cipher rc.api_version
            with e | p
        · rfl
        · obtain ⟨auth, cip2⟩ := p
          dsimp only
          rcases hm : cip2.cipher_metadata with _ | meta <;> rfl

/-- A single `DecodeMessages` performs at most one RSA-OAEP unwrap. -/
theorem decode_unwraps_le_one (c : Communicator) (rc : ClientComm) :
    (DecodeMessages c rc).rsaUnwraps ≤ 1 := by
  unfold DecodeMessages
  by_cases h1 : rc.api_version ≠ 2 ∧ rc.api_version ≠ 3
  · rw [if_pos h1]
    exact Nat.zero_le 1
  · rw [if_neg h1]
    by_cases h2 : rc.encrypted_cipher = Bytes.raw []
    · rw [if_pos h2]
      exact Nat.zero_le 1
    · rw [if_neg h2]
      rcases hl : List.lookup rc.encrypted_cipher c.encrypted_cipher_cache
          with _ | cipher
      · dsimp only
        rcases hc : ReceivedCipher.create rc c.private_key c.pub_key_cache
            with e | cipher
        · exact Nat.le_refl 1
        · dsimp only
          by_cases hsv : cipher.signature_verified = true
          · rw [if_pos hsv, dwc_unwraps]
          · rw [if_neg hsv, dwc_unwraps]
      · dsimp only
        rw [dwc_unwraps]
        exact Nat.zero_le 1

/-- `updateAssoc` keeps an existing key present. -/
theorem updateAssoc_lookup_isSome {α β : Type} [DecidableEq α]
    (l : List (α × β)) (k : α) (v : β) (h : (l.lookup k).isSome = true) :
    ((updateAssoc l k v).lookup k).isSome = true := by
  induction l with
  | nil => simp at h
  | cons p l ih =>
    obtain ⟨a, b⟩ := p
    by_cases hk : a = k
    · subst hk
      unfold updateAssoc
      rw [List.map_cons, if_pos rfl, List.lookup_cons]
      simp
    · unfold updateAssoc
      rw [List.map_cons, if_neg hk, List.lookup_cons]
      rw [List.lookup_cons] at h
      have hba : (k == a) = false := by
        simp
        exact fun he => hk he.symm
      rw [hba] at h ⊢
      exact ih h

/-- The envelope-cache entry for a frame's `encrypted_cipher` survives
`decodeWithCipher` (the write-back only replaces the stored value). -/
theorem dwc_lookup_preserved (c : Communicator) (rc : ClientComm)
    (cipher : Cipher) (u : Nat) (b : Bool)
    (h : (c.encrypted_cipher_cache.lookup rc.encrypted_cipher).isSome = true) :
    (((decodeWithCipher c rc cipher u b).comm.encrypted_cipher_cache.lookup
      rc.encrypted_cipher)).isSome = true := by
  unfold decodeWithCipher
  dsimp only
  rcases hdec : cipher.Decrypt rc.encrypted
      (if rc.iv ≠ [] then rc.iv else cipher.cipher.iv) with e | plain
  · exact h
  · dsimp only
    rcases hp : parseSMLO plain with _ | sml
    · exact h
    · dsimp only
      rcases hdc : DecompressMessageList sml with e | ml
      · exact h
      · dsimp only
        rcases hv2 : VerifyMessageSignature c rc sml cipher rc.api_version
            with e | p
        · exact h
        · obtain ⟨auth, cip2⟩ := p
          dsimp only
          cases b with
          | false => rcases hm : cip2.cipher_metadata with _ | meta <;> exact h
          | true =>
            rcases hm : cip2.cipher_metadata with _ | meta <;>
              exact updateAssoc_lookup_isSome c.encrypted_cipher_cache
                rc.encrypted_cipher cip2 h

/-- Decoding a frame whose cipher sits in the envelope cache performs no RSA
unwrap and keeps the entry cached. -/
theorem decode_cached_no_unwrap (c : Communicator) (rc : ClientComm)
    (h : (c.encrypted_cipher_cache.lookup rc.encrypted_cipher).isSome = true) :
    (DecodeMessages c rc).rsaUnwraps = 0 ∧
    (((DecodeMessages c rc).comm.encrypted_cipher_cache.lookup
      rc.encrypted_cipher)).isSome = true := by
  unfold DecodeMessages
  by_cases h1 : rc.api_version ≠ 2 ∧ rc.api_version ≠ 3
  · rw [if_pos h1]
    exact ⟨rfl, h⟩
  · rw [if_neg h1]
    by_cases h2 : rc.encrypted_cipher = Bytes.raw []
    · rw [if_pos h2]
      exact ⟨rfl, h⟩
    · rw [if_neg h2]
      rcases hl : List.lookup rc.encrypted_cipher c.encrypted_cipher_cache
          with _ | cipher
      · rw [hl] at h
        simp at h
      · dsimp only
        exact ⟨dwc_unwraps c rc cipher 0 true,
          dwc_lookup_preserved c rc cipher 0 true h⟩

/-- Iterated decodes of a frame whose cipher is already cached perform no RSA
unwrap at all. -/
theorem decodeIter_cached_zero (rc : ClientComm) :
    ∀ (n : Nat) (c : Communicator),
      (c.encrypted_cipher_cache.lookup rc.encrypted_cipher).isSome = true →
      (decodeIter c rc n).2 = 0 := by
  intro n
  induction n with
  | zero => intro c _; rfl
  | succ n ih =>
    intro c h
    obtain ⟨h0, h1⟩ := decode_cached_no_unwrap c rc h
    show (DecodeMessages c rc).rsaUnwraps
      + (decodeIter (DecodeMessages c rc).comm rc n).2 = 0
    rw [h0, ih _ h1]

/-- **C6** (corrected): counterexample.  A version-2 frame decoded twice by
the same communicator (both decodes succeed) performs two RSA-OAEP unwraps:
a version-2 `ReceivedCipher` never has `signature_verified` set, so it is
never inserted into the envelope cache and every decode repeats the
unwrap. -/
theorem duplicate_decode_two_unwraps_counterexample :
    (decodeIter (exDecoder 42) (exFrame 2) 2).2 = 2 ∧
    (DecodeMessages (exDecoder 42) (exFrame 2)).result.toOption.isSome
      = true ∧
    (DecodeMessages (DecodeMessages (exDecoder 42) (exFrame 2)).comm
      (exFrame 2)).result.toOption.isSome = true :=
  ⟨rfl, rfl, rfl⟩

/-- **C6** (corrected): amended claim.  When the first decode leaves the
cipher in the envelope cache (which happens exactly when its signature was
verified, e.g. a version-3 frame from a sender in the directory), decoding
the same `encrypted_cipher` `n + 1` times performs at most one RSA-OAEP
unwrap; an unverified cipher is not cached and each decode repeats the
unwrap. -/
theorem cached_cipher_single_unwrap (c : Communicator) (rc : ClientComm)
    (n : Nat)
    (hcached : (((DecodeMessages c rc).comm.encrypted_cipher_cache.lookup
        rc.encrypted_cipher)).isSome = true) :
    (decodeIter c rc (n + 1)).2 ≤ 1 := by
  show (DecodeMessages c rc).rsaUnwraps
    + (decodeIter (DecodeMessages c rc).comm rc n).2 ≤ 1
  rw [decodeIter_cached_zero rc n _ hcached]
  simpa using decode_unwraps_le_one c rc

/-- Witness for `cached_cipher_single_unwrap`: three decodes of the version-3
test frame cost one unwrap in total. -/
theorem cached_cipher_single_unwrap_witness :
    ((((DecodeMessages (exDecoder 42) (exFrame 3)).comm.encrypted_cipher_cache.lookup
        (exFrame 3).encrypted_cipher)).isSome = true) ∧
    (decodeIter (exDecoder 42) (exFrame 3) 3).2 ≤ 1 :=
  ⟨rfl, cached_cipher_single_unwrap (exDecoder 42) (exFrame 3) 2 rfl⟩

/-- **C1** (confirmed).  Round trip: for every batch, nonce and wire version,
encoding with `EncodeMessages` (fresh session keys, destination "ServerB")
and decoding the produced frame with a decoder that knows the encoder's CN
and whose `last_sent_timestamp` equals the returned nonce yields exactly the
batch, each message stamped `auth_state = AUTHENTICATED` and
`source = "ClientA"` (the encoder's common name), together with that source
and nonce. -/
theorem roundtrip_encode_decode (ml : List GrrMsg) (now : Nat) (v : Nat)
    (hv : v = 2 ∨ v = 3) (frame : ClientComm) (ts : Nat)
    (henc : (EncodeMessages exEncoder ml (some "ServerB") none v exKey exIv
        exHmacKey exMsgIv now "ZCOMPRESS").result = .ok (frame, ts)) :
    (DecodeMessages (exDecoder ts) frame).result
      = .ok
        (ml.map
          (fun m =>
            { m with auth_state := AuthState.authenticated, source := "ClientA" }),
          "ClientA", ts) := by
  rcases hv with hv | hv <;> subst hv <;>
    by_cases hc : blen (Bytes.zlibC (Bytes.serML ml)) < blen (Bytes.serML ml)
  all_goals
    simp [EncodeMessages, EncodeMessageList, Cipher.create,
      PubKeyCache.GetRSAPublicKey, exEncoder, Communicator.create,
      Communicator.putKey, PubKeyCache.Put, Cipher.Encrypt, Cipher.HMAC,
      List.lookup, hc] at henc
    obtain ⟨hf, hts⟩ := henc
    subst hf
    subst hts
    simp [DecodeMessages, decodeWithCipher, ReceivedCipher.create,
      rsaPrivateDecrypt, parsePropsO, parseMetaO, parseSMLO, parseMLO,
      zlibDecompressO, Cipher.Decrypt, aesDecrypt, Cipher.VerifyCipherSignature,
      VerifyMessageSignature, VerifyMessageSignatureStep, DecompressMessageList,
      Cipher.HMAC, PubKeyCache.GetRSAPublicKey, exDecoder, Communicator.create,
      Communicator.putKey, PubKeyCache.Put, updateAssoc, UNCOMPRESSED,
      ZCOMPRESSION, List.lookup, SMsgList.timestamp, SMsgList.compression,
      SMsgList.message_list, SMsgList.source, SMsgList.signature,
      CipherMeta.source, CipherMeta.signature, exKey, exIv, exHmacKey, exMsgIv]

/-- Witness for `roundtrip_encode_decode` on the one-message test batch, wire
version 3, nonce 42. -/
theorem roundtrip_encode_decode_witness :
    ((3 : Nat) = 2 ∨ (3 : Nat) = 3) ∧
    (EncodeMessages exEncoder exBatch (some "ServerB") none 3 exKey exIv
        exHmacKey exMsgIv 42 "ZCOMPRESS").result = .ok (exFrame 3, 42) ∧
    (DecodeMessages (exDecoder 42) (exFrame 3)).result
      = .ok
        (exBatch.map
          (fun m =>
            { m with auth_state := AuthState.authenticated, source := "ClientA" }),
          "ClientA", 42) :=
  ⟨Or.inr rfl, rfl,
    roundtrip_encode_decode exBatch 42 3 (Or.inr rfl) (exFrame 3) 42 rfl⟩
